import Mathlib

/-!
Shallow embedding of the QRSpeedTest live-benchmarking core
(`qrspeedtest/live_benchmark.py`, `qrspeedtest/camera.py`,
`qrspeedtest/stats.py`) and proofs about it.

Timestamps are nanosecond integers (`Int`).  Python float configuration
values (`timeout_s`, `confirmation_window_ms`) are modelled as exact
rationals (`ℚ`); the conversions `int(x * 1e9)` / `int(x * 1e6)` are
modelled exactly (Python `int()` truncates toward zero).  Python dicts
are modelled as association lists: assignment to an existing key keeps
its position, a new key is appended, matching insertion-order semantics.
Millisecond statistics are modelled over `ℚ`.
-/

namespace QRSpeedTest

/-- Dictionary lookup on an association list (Python `d.get(k)` / `d[k]`). -/
def alookup {α β : Type} [DecidableEq α] (k : α) : List (α × β) → Option β
  | [] => none
  | (k0, v) :: rest => if k0 = k then some v else alookup k rest

/-- Dictionary assignment `d[k] = v`: overwrite in place, or append a new key. -/
def aset {α β : Type} [DecidableEq α] (k : α) (v : β) : List (α × β) → List (α × β)
  | [] => [(k, v)]
  | (k0, v0) :: rest => if k0 = k then (k, v) :: rest else (k0, v0) :: aset k v rest

/-- Python `int(q * scale)` for an exact rational `q` and an integer `scale`:
`int()` truncates toward zero, and `q * scale = (q.num * scale) / q.den`
with `q.den > 0`, so the result is the truncating division `Int.tdiv`. -/
def pyTruncScaled (q : ℚ) (scale : Int) : Int := (q.num * scale).tdiv q.den

/-- Python `math.floor` on an exact rational: `q.den` is positive, so the
euclidean division `q.num / q.den` is the floor. -/
def mathFloor (q : ℚ) : Int := q.num / q.den

/-- Python `math.ceil` on an exact rational. -/
def mathCeil (q : ℚ) : Int := -mathFloor (-q)

/-- `stats._percentile(values, p)`: `None` on an empty list, the sole element
for a singleton, otherwise linear interpolation between the order statistics
at `math.floor(rank)` and `math.ceil(rank)` where
`rank = (len(sorted_vals) - 1) * p`. -/
def percentile (values : List ℚ) (p : ℚ) : Option ℚ :=
  if values = [] then none
  else if values.length = 1 then values.head?
  else
    let sorted_vals := values.mergeSort (fun a b => decide (a ≤ b))
    let rank : ℚ := ((sorted_vals.length : ℚ) - 1) * p
    let low := mathFloor rank
    let high := mathCeil rank
    if low = high then some (sorted_vals.getD (pyTruncScaled rank 1).toNat 0)
    else
      let frac := rank - (low : ℚ)
      some (sorted_vals.getD low.toNat 0 * (1 - frac) + sorted_vals.getD high.toNat 0 * frac)

/-- `config.LiveBenchmarkConfig` (the fields the live engine reads). -/
structure LiveBenchmarkConfig where
  timeout_s : ℚ
  confirmations_required : Nat
  confirmation_window_ms : ℚ
deriving DecidableEq

/-- `live_benchmark.TrialDecoderState`. The history deque holds
`(payload, timestamp_ns)` pairs, oldest first. -/
structure TrialDecoderState where
  first_detect_ns : Option Int
  confirm_detect_ns : Option Int
  history : List (String × Int)
deriving DecidableEq

/-- The default `TrialDecoderState()` value. -/
def TrialDecoderState.init : TrialDecoderState :=
  { first_detect_ns := none, confirm_detect_ns := none, history := [] }

/-- `live_benchmark.TrialRecord`. -/
structure TrialRecord where
  trial_id : Int
  t0_ns : Int
  timeout_ns : Int
  per_decoder : List (String × TrialDecoderState)
deriving DecidableEq

/-- The mutable state of `LiveBenchmarkController`: the trial map and the
active-trial id. -/
structure ControllerState where
  trials : List (Int × TrialRecord)
  active_trial_id : Option Int
deriving DecidableEq

/-- State of a freshly constructed controller. -/
def initState : ControllerState := { trials := [], active_trial_id := none }

/-- One line sent to the structured logger. -/
structure Event where
  timestamp_ns : Int
  trial_id : Option Int
  decoder : String
  event_type : String
  payload_string : Option String
deriving DecidableEq

/-- The decoder identities the summary iterates over (`live_benchmark.DECODERS`). -/
def DECODERS : List String := ["AVFOUNDATION", "VISION", "ZXING"]

/-- `int(self.config.confirmation_window_ms * 1e6)` (line 66). -/
def window_ns (config : LiveBenchmarkConfig) : Int :=
  pyTruncScaled config.confirmation_window_ms 1000000

/-- `int(self.config.timeout_s * 1e9)` (line 41). -/
def timeout_add_ns (config : LiveBenchmarkConfig) : Int :=
  pyTruncScaled config.timeout_s 1000000000

/-- `LiveBenchmarkController.start_trial`: create/overwrite the trial record,
make it active, log `TRIAL_START`. -/
def start_trial (config : LiveBenchmarkConfig) (s : ControllerState)
    (trial_id : Int) (t0_ns : Int) : ControllerState × Event :=
  let timeout_ns := t0_ns + timeout_add_ns config
  let record : TrialRecord :=
    { trial_id := trial_id, t0_ns := t0_ns, timeout_ns := timeout_ns, per_decoder := [] }
  ({ trials := aset trial_id record s.trials,
     active_trial_id := some trial_id },
   { timestamp_ns := t0_ns, trial_id := some trial_id, decoder := "SYSTEM",
     event_type := "TRIAL_START", payload_string := none })

/-- `LiveBenchmarkController.end_trial`: only logs `TRIAL_END` (at a
caller-side clock reading `ts_ns`); the controller state is untouched. -/
def end_trial (s : ControllerState) (trial_id : Int) (ts_ns : Int) :
    ControllerState × Event :=
  (s, { timestamp_ns := ts_ns, trial_id := some trial_id, decoder := "SYSTEM",
        event_type := "TRIAL_END", payload_string := none })

/-- The `while` loop of lines 68-69: pop entries from the front of the history
while the front entry is older than the window relative to `ts_ns`. -/
def evictOld (ts_ns window : Int) : List (String × Int) → List (String × Int)
  | [] => []
  | (p, t) :: rest => if ts_ns - t > window then evictOld ts_ns window rest else (p, t) :: rest

/-- The count of line 70: history entries whose payload matches, computed on
the history after appending `(payload, ts_ns)` and evicting stale entries. -/
def detectionCount (config : LiveBenchmarkConfig) (st : TrialDecoderState)
    (ts_ns : Int) (payload : String) : Nat :=
  ((evictOld ts_ns (window_ns config) (st.history ++ [(payload, ts_ns)])).filter
    (fun e => e.1 = payload)).length

/-- Lines 62-75 of `on_detection`, acting on one `TrialDecoderState`:
latch `first_detect_ns`, append to and trim the history, then apply the
confirmation policy (single-shot fallback for `AVFOUNDATION` when
`confirmations_required > 1`, threshold confirmation otherwise). -/
def detStep (config : LiveBenchmarkConfig) (st : TrialDecoderState)
    (decoder : String) (ts_ns : Int) (payload : String) : TrialDecoderState :=
  let first := if st.first_detect_ns = none then some ts_ns else st.first_detect_ns
  let history := evictOld ts_ns (window_ns config) (st.history ++ [(payload, ts_ns)])
  let count := (history.filter (fun e => e.1 = payload)).length
  let confirm :=
    if st.confirm_detect_ns = none then
      if decoder = "AVFOUNDATION" ∧ 1 < config.confirmations_required ∧
          count < config.confirmations_required then
        first
      else if config.confirmations_required ≤ count then
        some ts_ns
      else
        st.confirm_detect_ns
    else
      st.confirm_detect_ns
  { first_detect_ns := first, history := history, confirm_detect_ns := confirm }

/-- The guards of lines 56-61: `none` when no trial is active, the active id
has no record, or `ts_ns` is outside `[t0_ns, timeout_ns]`; otherwise the
active trial id and its record. -/
def accepts (s : ControllerState) (ts_ns : Int) : Option (Int × TrialRecord) :=
  match s.active_trial_id with
  | none => none
  | some trial_id =>
    match alookup trial_id s.trials with
    | none => none
    | some trial =>
      if ts_ns < trial.t0_ns ∨ trial.timeout_ns < ts_ns then none
      else some (trial_id, trial)

/-- `LiveBenchmarkController.on_detection`: a guarded no-op, or an update of
the per-decoder state of the active trial followed by a `PAYLOAD_DETECTED`
log line. -/
def on_detection (config : LiveBenchmarkConfig) (s : ControllerState)
    (decoder : String) (ts_ns : Int) (payload : String) :
    ControllerState × Option Event :=
  match accepts s ts_ns with
  | none => (s, none)
  | some (trial_id, trial) =>
    let st := detStep config ((alookup decoder trial.per_decoder).getD TrialDecoderState.init)
        decoder ts_ns payload
    let trial2 := { trial with per_decoder := aset decoder st trial.per_decoder }
    ({ s with trials := aset trial_id trial2 s.trials },
     some { timestamp_ns := ts_ns, trial_id := some trial_id, decoder := decoder,
            event_type := "PAYLOAD_DETECTED", payload_string := some payload })

/-- The operations the environment performs on the controller. -/
inductive BenchOp where
  | startTrial (trial_id : Int) (t0_ns : Int)
  | endTrial (trial_id : Int) (ts_ns : Int)
  | detect (decoder : String) (ts_ns : Int) (payload : String)
deriving DecidableEq

/-- The state transition of one operation. -/
def step (config : LiveBenchmarkConfig) (s : ControllerState) : BenchOp → ControllerState
  | .startTrial trial_id t0_ns => (start_trial config s trial_id t0_ns).1
  | .endTrial trial_id ts_ns => (end_trial s trial_id ts_ns).1
  | .detect decoder ts_ns payload => (on_detection config s decoder ts_ns payload).1

/-- Run a sequence of operations from a state. -/
def run (config : LiveBenchmarkConfig) (s : ControllerState) (ops : List BenchOp) :
    ControllerState :=
  ops.foldl (step config) s

/-- The per-decoder state recorded for `(trial_id, decoder)`, defaulting to a
fresh `TrialDecoderState`. -/
def decoderState (s : ControllerState) (trial_id : Int) (decoder : String) :
    TrialDecoderState :=
  match alookup trial_id s.trials with
  | none => TrialDecoderState.init
  | some trial => (alookup decoder trial.per_decoder).getD TrialDecoderState.init

/-- One row of `trials_summary_rows`. -/
structure SummaryRow where
  trial_id : Int
  decoder : String
  success : Bool
  first_detect_latency_ms : Option ℚ
  confirm_detect_latency_ms : Option ℚ
deriving DecidableEq

/-- Python truthiness of an optional timestamp (`bool(x)` and `if x`):
false for `None` and for `0`. -/
def truthy : Option Int → Bool
  | none => false
  | some t => t != 0

/-- `((ts - t0_ns) / 1e6) if ts else None` (lines 91-92): the guard is Python
truthiness, so a timestamp of exactly 0 yields `None`. -/
def latency_ms (t0_ns : Int) : Option Int → Option ℚ
  | none => none
  | some t => if t = 0 then none else some (((t : ℚ) - (t0_ns : ℚ)) / 1000000)

/-- One summary row for a `(trial, decoder)` pair (lines 90-101). -/
def mkRow (trial_id : Int) (trial : TrialRecord) (decoder : String) : SummaryRow :=
  let st := (alookup decoder trial.per_decoder).getD TrialDecoderState.init
  { trial_id := trial_id, decoder := decoder,
    success := truthy st.first_detect_ns,
    first_detect_latency_ms := latency_ms trial.t0_ns st.first_detect_ns,
    confirm_detect_latency_ms := latency_ms trial.t0_ns st.confirm_detect_ns }

/-- `sorted(self._trials.items())`: sort the trial map by trial id. -/
def sortTrials (l : List (Int × TrialRecord)) : List (Int × TrialRecord) :=
  l.mergeSort (fun a b => decide (a.1 ≤ b.1))

/-- `LiveBenchmarkController.trials_summary_rows`. -/
def trials_summary_rows (s : ControllerState) : List SummaryRow :=
  (sortTrials s.trials).flatMap (fun kv => DECODERS.map (mkRow kv.1 kv.2))

/-- `camera.SharedCameraSession`: the fields of the ingestion/dispatch path.
`pending_tasks` models how many submitted decode tasks the worker pool still
holds; the source never reads it back. `decode_queue_maxsize` is the bound of
the `queue.Queue(maxsize=2)` declared in `__init__` and never used again. -/
structure SharedCameraSession where
  throttle_n_frames : Nat
  parallel_decode : Bool
  frames_received : Nat
  frame_index : Nat
  pending_tasks : Nat
  decode_queue_maxsize : Nat
deriving DecidableEq

/-- `SharedCameraSession.__init__`: clamp the throttle to at least 1, start
counters at zero, create the (never consulted) bounded queue with maxsize 2. -/
def mkSession (throttle_n_frames : Nat) (parallel_decode : Bool) : SharedCameraSession :=
  { throttle_n_frames := max 1 throttle_n_frames, parallel_decode := parallel_decode,
    frames_received := 0, frame_index := 0, pending_tasks := 0, decode_queue_maxsize := 2 }

/-- What one `on_video_sample` call produces: the frame index it assigned, the
event types it logged on the ingestion path, and how many decode tasks it
submitted to the executor. -/
structure SampleOutcome where
  frame_index : Nat
  events : List String
  decode_submissions : Nat
deriving DecidableEq

/-- `SharedCameraSession.on_video_sample` (lines 130-175): count and number
the frame, log `FRAME_RECEIVED`, stop if throttled, otherwise submit decode
tasks (two in parallel mode, one combined serial task otherwise). The
submission is unconditional: `pending_tasks` is never consulted. -/
def on_video_sample (s : SharedCameraSession) : SharedCameraSession × SampleOutcome :=
  let frame_idx := s.frame_index + 1
  let s := { s with frames_received := s.frames_received + 1, frame_index := frame_idx }
  if frame_idx % s.throttle_n_frames ≠ 0 then
    (s, { frame_index := frame_idx, events := ["FRAME_RECEIVED"], decode_submissions := 0 })
  else
    let n := if s.parallel_decode then 2 else 1
    ({ s with pending_tasks := s.pending_tasks + n },
     { frame_index := frame_idx, events := ["FRAME_RECEIVED"], decode_submissions := n })

/-- Deliver `k` frames in a row, collecting the outcomes in order. -/
def runFrames (s : SharedCameraSession) : Nat → SharedCameraSession × List SampleOutcome
  | 0 => (s, [])
  | k + 1 =>
    let r1 := on_video_sample s
    let r2 := runFrames r1.1 k
    (r2.1, r1.2 :: r2.2)

/-- Is every history entry within the confirmation window of the most
recently appended (rightmost) entry? -/
def windowOK (window : Int) (l : List (String × Int)) : Bool :=
  match l.getLast? with
  | none => true
  | some last => l.all (fun e => decide (last.2 - e.2 ≤ window))

/-- A lower bound `m` on every detection timestamp in `ops`, with the
detection timestamps themselves non-decreasing. -/
def tsLB (m : Int) : List BenchOp → Prop
  | [] => True
  | BenchOp.detect _ ts _ :: rest => m ≤ ts ∧ tsLB ts rest
  | _ :: rest => tsLB m rest

/-- The detection timestamps occurring in `ops` are non-decreasing. -/
def detectsMono : List BenchOp → Prop
  | [] => True
  | BenchOp.detect _ ts _ :: rest => tsLB ts rest
  | _ :: rest => detectsMono rest

/-- The default configuration of `config.LiveBenchmarkConfig`
(timeout 3.0 s, 2 confirmations, 500.0 ms window). -/
def defaultConfig : LiveBenchmarkConfig :=
  { timeout_s := 3, confirmations_required := 2, confirmation_window_ms := 500 }

/-- A configuration with a 1 ms confirmation window (1000000 ns), used to
exercise the window-eviction logic on small timestamps. -/
def cfgTinyWindow : LiveBenchmarkConfig :=
  { timeout_s := 3, confirmations_required := 2, confirmation_window_ms := 1 }

/-- The per-decoder invariant behind `confirmed ≥ first`: every latched first
detection is bounded by the last detection timestamp `m`, a state with no
first detection has no confirmation, and `first ≤ confirm` once both are set. -/
def confirmInv (m : Int) (st : TrialDecoderState) : Prop :=
  (∀ t, st.first_detect_ns = some t → t ≤ m) ∧
  (st.first_detect_ns = none → st.confirm_detect_ns = none) ∧
  (∀ t c, st.first_detect_ns = some t → st.confirm_detect_ns = some c → t ≤ c)

/-- The per-decoder history invariant: timestamps non-decreasing along the
deque, bounded by the last detection timestamp `m`, and all within the
confirmation window of the most recently appended entry. -/
def histInv (w m : Int) (st : TrialDecoderState) : Prop :=
  List.Pairwise (fun a b : String × Int => a.2 ≤ b.2) st.history ∧
  (∀ e ∈ st.history, e.2 ≤ m) ∧ windowOK w st.history = true

/-- How the amended C8 words each latency cell: the exact millisecond value
`(ts − t0) / 1e6` when a nonzero timestamp is present, `None` when the
timestamp is absent or zero. -/
def latencySpec (t0_ns : Int) (o : Option Int) (r : Option ℚ) : Prop :=
  (∀ t, o = some t → t ≠ 0 → r = some (((t : ℚ) - (t0_ns : ℚ)) / 1000000)) ∧
  ((o = none ∨ o = some 0) → r = none)

/-- The count the code computes for each accepted detection along a run:
the decoder identity together with the matching-payload count of line 70. -/
def acceptedCounts (config : LiveBenchmarkConfig) :
    ControllerState → List BenchOp → List (String × Nat)
  | _, [] => []
  | s, op :: rest =>
    match op with
    | BenchOp.detect d ts p =>
      (match accepts s ts with
       | some (_, trial) =>
         (d, detectionCount config ((alookup d trial.per_decoder).getD TrialDecoderState.init) ts p)
           :: acceptedCounts config (step config s op) rest
       | none => acceptedCounts config (step config s op) rest)
    | _ => acceptedCounts config (step config s op) rest

/-- The 95th-percentile formula as the spec words it: linear interpolation at
rank `(count − 1) × 0.95` between the two bounding order statistics of the
sorted values. -/
def p95Spec (sv : List ℚ) : ℚ :=
  let rank : ℚ := ((sv.length : ℚ) - 1) * (95/100)
  let low := mathFloor rank
  let high := mathCeil rank
  let frac := rank - (low : ℚ)
  sv.getD low.toNat 0 * (1 - frac) + sv.getD high.toNat 0 * frac

/-- A trial record with one recorded first detection, 50 ms after `t0`. -/
def sampleTrialRecord : TrialRecord :=
  { trial_id := 1, t0_ns := 1000000000, timeout_ns := 4000000000,
    per_decoder := [("VISION",
      { first_detect_ns := some 1050000000, confirm_detect_ns := none, history := [] })] }

/-- A controller state holding only `sampleTrialRecord`. -/
def sampleSummaryState : ControllerState :=
  { trials := [(1, sampleTrialRecord)], active_trial_id := none }

/-- The trial record reached by starting trial 1 at `t0 = 0` and accepting a
VISION detection at timestamp 0 under the default configuration. -/
def zeroTsTrialRecord : TrialRecord :=
  { trial_id := 1, t0_ns := 0, timeout_ns := 3000000000,
    per_decoder := [("VISION",
      { first_detect_ns := some 0, confirm_detect_ns := none, history := [("x", 0)] })] }

theorem alookup_aset_self {α β : Type} [DecidableEq α] (k : α) (v : β) (l : List (α × β)) :
    alookup k (aset k v l) = some v := by
  induction l with
  | nil => simp [alookup, aset]
  | cons kv rest ih =>
    by_cases h : kv.1 = k
    · simp [aset, h, alookup]
    · simp [aset, h, alookup, ih]

theorem alookup_aset_ne {α β : Type} [DecidableEq α] (k k2 : α) (v : β) (l : List (α × β))
    (h : k ≠ k2) : alookup k2 (aset k v l) = alookup k2 l := by
  induction l with
  | nil => simp [alookup, aset, h]
  | cons kv rest ih =>
    by_cases hk : kv.1 = k
    · simp [aset, hk, alookup, h, ih]
    · simp [aset, hk, alookup, ih]

theorem accepts_spec (s : ControllerState) (ts_ns : Int) (trial_id : Int) (trial : TrialRecord)
    (h : accepts s ts_ns = some (trial_id, trial)) :
    s.active_trial_id = some trial_id ∧ alookup trial_id s.trials = some trial ∧
      trial.t0_ns ≤ ts_ns ∧ ts_ns ≤ trial.timeout_ns := by
  unfold accepts at h
  split at h
  · simp at h
  · rename_i tid0 hact
    split at h
    · simp at h
    · rename_i tr0 hlk
      split at h
      · simp at h
      · rename_i hout
        push_neg at hout
        simp only [Option.some.injEq, Prod.mk.injEq] at h
        obtain ⟨h1, h2⟩ := h
        subst h1
        subst h2
        exact ⟨hact, hlk, hout.1, hout.2⟩

theorem on_detection_of_accepts_none (config : LiveBenchmarkConfig) (s : ControllerState)
    (decoder : String) (ts_ns : Int) (payload : String) (h : accepts s ts_ns = none) :
    on_detection config s decoder ts_ns payload = (s, none) := by
  unfold on_detection
  rw [h]

theorem decoderState_initState (trial_id : Int) (decoder : String) :
    decoderState initState trial_id decoder = TrialDecoderState.init := rfl

theorem detStep_history (config : LiveBenchmarkConfig) (st : TrialDecoderState)
    (decoder : String) (ts_ns : Int) (payload : String) :
    (detStep config st decoder ts_ns payload).history =
      evictOld ts_ns (window_ns config) (st.history ++ [(payload, ts_ns)]) := rfl

theorem detStep_first (config : LiveBenchmarkConfig) (st : TrialDecoderState)
    (decoder : String) (ts_ns : Int) (payload : String) :
    (detStep config st decoder ts_ns payload).first_detect_ns =
      if st.first_detect_ns = none then some ts_ns else st.first_detect_ns := rfl

theorem decoderState_step (config : LiveBenchmarkConfig) (s : ControllerState) (op : BenchOp)
    (tid : Int) (d : String) :
    decoderState (step config s op) tid d = decoderState s tid d ∨
    decoderState (step config s op) tid d = TrialDecoderState.init ∨
    ∃ ts p, op = BenchOp.detect d ts p ∧
      decoderState (step config s op) tid d = detStep config (decoderState s tid d) d ts p := by
  match op with
  | BenchOp.endTrial tid0 ts0 => exact Or.inl rfl
  | BenchOp.startTrial tid0 t0 =>
    by_cases h : tid0 = tid
    · subst h
      refine Or.inr (Or.inl ?_)
      simp [step, start_trial, decoderState, alookup_aset_self, alookup]
    · refine Or.inl ?_
      simp [step, start_trial, decoderState, alookup_aset_ne tid0 tid _ _ h]
  | BenchOp.detect d0 ts0 p0 =>
    match hacc : accepts s ts0 with
    | none =>
      refine Or.inl ?_
      simp [step, on_detection_of_accepts_none config s d0 ts0 p0 hacc]
    | some (tid0, trial) =>
      have hspec := accepts_spec s ts0 tid0 trial hacc
      by_cases htid : tid0 = tid
      · subst htid
        by_cases hd : d0 = d
        · subst hd
          refine Or.inr (Or.inr ⟨ts0, p0, rfl, ?_⟩)
          simp only [step, on_detection, hacc]
          simp [decoderState, alookup_aset_self, hspec.2.1]
        · refine Or.inl ?_
          simp only [step, on_detection, hacc]
          simp [decoderState, alookup_aset_self, hspec.2.1, alookup_aset_ne d0 d _ _ hd]
      · refine Or.inl ?_
        simp only [step, on_detection, hacc]
        simp [decoderState, alookup_aset_ne tid0 tid _ _ htid]

theorem run_nil (config : LiveBenchmarkConfig) (s : ControllerState) : run config s [] = s := rfl

theorem run_cons (config : LiveBenchmarkConfig) (s : ControllerState) (op : BenchOp)
    (ops : List BenchOp) : run config s (op :: ops) = run config (step config s op) ops := rfl

theorem run_pointwise (config : LiveBenchmarkConfig) (Q : String → TrialDecoderState → Prop)
    (hinit : ∀ d, Q d TrialDecoderState.init)
    (hstep : ∀ st d ts p, Q d st → Q d (detStep config st d ts p)) :
    ∀ (ops : List BenchOp) (s : ControllerState),
      (∀ tid d, Q d (decoderState s tid d)) →
      ∀ tid d, Q d (decoderState (run config s ops) tid d) := by
  intro ops
  induction ops with
  | nil => intro s h tid d; exact h tid d
  | cons op rest ih =>
    intro s h tid d
    rw [run_cons]
    apply ih
    intro tid2 d2
    rcases decoderState_step config s op tid2 d2 with heq | heq | ⟨ts, p, _, heq⟩
    · rw [heq]; exact h tid2 d2
    · rw [heq]; exact hinit d2
    · rw [heq]; exact hstep _ _ _ _ (h tid2 d2)

theorem run_tslb_inv (config : LiveBenchmarkConfig) (Q : Int → TrialDecoderState → Prop)
    (hinit : ∀ m, Q m TrialDecoderState.init)
    (hweak : ∀ m m2 st, m ≤ m2 → Q m st → Q m2 st)
    (hstep : ∀ m st d ts p, m ≤ ts → Q m st → Q ts (detStep config st d ts p)) :
    ∀ (ops : List BenchOp) (m : Int) (s : ControllerState), tsLB m ops →
      (∀ tid d, Q m (decoderState s tid d)) →
      ∃ m2, ∀ tid d, Q m2 (decoderState (run config s ops) tid d) := by
  intro ops
  induction ops with
  | nil => intro m s _ h; exact ⟨m, h⟩
  | cons op rest ih =>
    intro m s hlb h
    rw [run_cons]
    match op with
    | BenchOp.detect d0 ts0 p0 =>
      obtain ⟨hm, hrest⟩ : m ≤ ts0 ∧ tsLB ts0 rest := hlb
      apply ih ts0 _ hrest
      intro tid d
      rcases decoderState_step config s (BenchOp.detect d0 ts0 p0) tid d with
        heq | heq | ⟨ts, p, hop, heq⟩
      · rw [heq]; exact hweak m ts0 _ hm (h tid d)
      · rw [heq]; exact hinit ts0
      · obtain ⟨hd, hts, hp⟩ : d0 = d ∧ ts0 = ts ∧ p0 = p := by
          cases hop; exact ⟨rfl, rfl, rfl⟩
        subst hts
        rw [heq]
        exact hstep m _ _ _ _ hm (h tid d)
    | BenchOp.startTrial a b =>
      apply ih m _ (show tsLB m rest from hlb)
      intro tid d
      rcases decoderState_step config s (BenchOp.startTrial a b) tid d with
        heq | heq | ⟨ts, p, hop, heq⟩
      · rw [heq]; exact h tid d
      · rw [heq]; exact hinit m
      · exact absurd hop (by simp)
    | BenchOp.endTrial a b =>
      apply ih m _ (show tsLB m rest from hlb)
      intro tid d
      rcases decoderState_step config s (BenchOp.endTrial a b) tid d with
        heq | heq | ⟨ts, p, hop, heq⟩
      · rw [heq]; exact h tid d
      · rw [heq]; exact hinit m
      · exact absurd hop (by simp)

theorem run_mono_inv (config : LiveBenchmarkConfig) (Q : Int → TrialDecoderState → Prop)
    (hinit : ∀ m, Q m TrialDecoderState.init)
    (hweak : ∀ m m2 st, m ≤ m2 → Q m st → Q m2 st)
    (hstep : ∀ m st d ts p, m ≤ ts → Q m st → Q ts (detStep config st d ts p)) :
    ∀ (ops : List BenchOp) (s : ControllerState), detectsMono ops →
      (∀ m tid d, Q m (decoderState s tid d)) →
      ∃ m2, ∀ tid d, Q m2 (decoderState (run config s ops) tid d) := by
  intro ops
  induction ops with
  | nil => intro s _ h; exact ⟨0, h 0⟩
  | cons op rest ih =>
    intro s hmono h
    match op with
    | BenchOp.detect d0 ts0 p0 =>
      exact run_tslb_inv config Q hinit hweak hstep (BenchOp.detect d0 ts0 p0 :: rest) ts0 s
        ⟨le_refl ts0, show tsLB ts0 rest from hmono⟩ (h ts0)
    | BenchOp.startTrial a b =>
      rw [run_cons]
      apply ih _ (show detectsMono rest from hmono)
      intro m tid d
      rcases decoderState_step config s (BenchOp.startTrial a b) tid d with
        heq | heq | ⟨ts, p, hop, heq⟩
      · rw [heq]; exact h m tid d
      · rw [heq]; exact hinit m
      · exact absurd hop (by simp)
    | BenchOp.endTrial a b =>
      rw [run_cons]
      apply ih _ (show detectsMono rest from hmono)
      intro m tid d
      rcases decoderState_step config s (BenchOp.endTrial a b) tid d with
        heq | heq | ⟨ts, p, hop, heq⟩
      · rw [heq]; exact h m tid d
      · rw [heq]; exact hinit m
      · exact absurd hop (by simp)

theorem detStep_avf_confirm_eq (config : LiveBenchmarkConfig)
    (hreq : 1 < config.confirmations_required) (st : TrialDecoderState) (ts_ns : Int)
    (payload : String) (h : st.confirm_detect_ns = st.first_detect_ns) :
    (detStep config st "AVFOUNDATION" ts_ns payload).confirm_detect_ns =
      (detStep config st "AVFOUNDATION" ts_ns payload).first_detect_ns := by
  simp only [detStep]
  by_cases h1 : st.first_detect_ns = none
  · have h2 : st.confirm_detect_ns = none := by rw [h, h1]
    by_cases hc :
        ((evictOld ts_ns (window_ns config) (st.history ++ [(payload, ts_ns)])).filter
          (fun e => e.1 = payload)).length < config.confirmations_required
    · simp [h1, h2, hc, hreq]
    · have hge : config.confirmations_required ≤
          ((evictOld ts_ns (window_ns config) (st.history ++ [(payload, ts_ns)])).filter
            (fun e => e.1 = payload)).length := by omega
      simp [h1, h2, hc, hge]
  · have h2 : ¬ st.confirm_detect_ns = none := by rw [h]; exact h1
    simp [h1, h2, h]

theorem detStep_confirm (config : LiveBenchmarkConfig) (st : TrialDecoderState)
    (decoder : String) (ts_ns : Int) (payload : String) :
    (detStep config st decoder ts_ns payload).confirm_detect_ns =
      (if st.confirm_detect_ns = none then
        if decoder = "AVFOUNDATION" ∧ 1 < config.confirmations_required ∧
            detectionCount config st ts_ns payload < config.confirmations_required then
          (if st.first_detect_ns = none then some ts_ns else st.first_detect_ns)
        else if config.confirmations_required ≤ detectionCount config st ts_ns payload then
          some ts_ns
        else
          st.confirm_detect_ns
      else st.confirm_detect_ns) := rfl

/-- In every reachable controller state, the `AVFOUNDATION` per-decoder state
has `confirm_detect_ns = first_detect_ns` whenever `confirmations_required > 1`:
the single-shot fallback fires on the very first accepted detection. -/
theorem avf_confirm_eq_first_run (config : LiveBenchmarkConfig)
    (hreq : 1 < config.confirmations_required) (ops : List BenchOp) (tid : Int) :
    (decoderState (run config initState ops) tid "AVFOUNDATION").confirm_detect_ns =
      (decoderState (run config initState ops) tid "AVFOUNDATION").first_detect_ns := by
  have h := run_pointwise config
    (fun d st => d = "AVFOUNDATION" → st.confirm_detect_ns = st.first_detect_ns)
    (fun _ _ => rfl)
    (by
      intro st d ts p hQ hd
      subst hd
      exact detStep_avf_confirm_eq config hreq st ts p (hQ rfl))
    ops initState (fun _ _ _ => rfl)
  exact h tid "AVFOUNDATION" rfl

theorem detStep_confirmInv (config : LiveBenchmarkConfig) (m : Int)
    (st : TrialDecoderState) (d : String) (ts_ns : Int) (payload : String)
    (hm : m ≤ ts_ns) (h : confirmInv m st) :
    confirmInv ts_ns (detStep config st d ts_ns payload) := by
  obtain ⟨h1, h2, h3⟩ := h
  cases hf : st.first_detect_ns with
  | none =>
    have hc := h2 hf
    refine ⟨?_, ?_, ?_⟩
    · intro t ht
      rw [detStep_first, hf] at ht
      simp at ht
      omega
    · intro hn
      rw [detStep_first, hf] at hn
      simp at hn
    · intro t c ht hcc
      rw [detStep_first, hf] at ht
      simp at ht
      rw [detStep_confirm, hf, hc] at hcc
      split_ifs at hcc <;> simp_all
  | some t0 =>
    have ht0 : t0 ≤ m := h1 t0 hf
    have hfne : ¬ st.first_detect_ns = none := by rw [hf]; simp
    refine ⟨?_, ?_, ?_⟩
    · intro t ht
      rw [detStep_first] at ht
      rw [if_neg hfne, hf] at ht
      simp at ht
      omega
    · intro hn
      rw [detStep_first, if_neg hfne, hf] at hn
      simp at hn
    · intro t c ht hcc
      rw [detStep_first, if_neg hfne, hf] at ht
      simp at ht
      rw [detStep_confirm] at hcc
      cases hcf : st.confirm_detect_ns with
      | none =>
        rw [hcf] at hcc
        rw [if_neg hfne, hf] at hcc
        split_ifs at hcc <;> (simp_all; try omega)
      | some c0 =>
        have hcne : ¬ st.confirm_detect_ns = none := by rw [hcf]; simp
        rw [if_neg hcne, hcf] at hcc
        simp at hcc
        have hb := h3 t0 c0 hf hcf
        omega

/-- Under non-decreasing detection timestamps, every reachable per-decoder
state satisfies `confirmInv` for some bound. -/
theorem run_confirmInv (config : LiveBenchmarkConfig) (ops : List BenchOp)
    (h : detectsMono ops) :
    ∃ m2, ∀ tid d, confirmInv m2 (decoderState (run config initState ops) tid d) := by
  have hbase : ∀ m, confirmInv m TrialDecoderState.init := by
    intro m
    refine ⟨?_, fun _ => rfl, ?_⟩
    · intro t ht
      simp [TrialDecoderState.init] at ht
    · intro t c ht hc
      simp [TrialDecoderState.init] at ht
  apply run_mono_inv config confirmInv
  · exact hbase
  · intro m m2 st hle hq
    exact ⟨fun t ht => le_trans (hq.1 t ht) hle, hq.2.1, hq.2.2⟩
  · intro m st d ts p hm hq
    exact detStep_confirmInv config m st d ts p hm hq
  · exact h
  · intro m tid d
    rw [decoderState_initState]
    exact hbase m

theorem evictOld_suffix (ts_ns w : Int) (l : List (String × Int)) :
    evictOld ts_ns w l <:+ l := by
  induction l with
  | nil =>
    show evictOld ts_ns w [] <:+ []
    simp [evictOld]
  | cons e rest ih =>
    obtain ⟨p, t⟩ := e
    by_cases hc : ts_ns - t > w
    · have hstep : evictOld ts_ns w ((p, t) :: rest) = evictOld ts_ns w rest := by
        simp [evictOld, hc]
      rw [hstep]
      exact ih.trans (List.suffix_cons (p, t) rest)
    · have hstep : evictOld ts_ns w ((p, t) :: rest) = (p, t) :: rest := by
        simp [evictOld, hc]
      rw [hstep]

theorem evictOld_head (ts_ns w : Int) (l : List (String × Int)) (e : String × Int)
    (h : (evictOld ts_ns w l).head? = some e) : ts_ns - e.2 ≤ w := by
  induction l with
  | nil => simp [evictOld] at h
  | cons x rest ih =>
    obtain ⟨p, t⟩ := x
    by_cases hc : ts_ns - t > w
    · rw [show evictOld ts_ns w ((p, t) :: rest) = evictOld ts_ns w rest from by
        simp [evictOld, hc]] at h
      exact ih h
    · rw [show evictOld ts_ns w ((p, t) :: rest) = (p, t) :: rest from by
        simp [evictOld, hc]] at h
      simp at h
      subst h
      show ts_ns - t ≤ w
      omega

theorem getLast?_of_suffix {α : Type} {l1 l2 : List α} (h : l1 <:+ l2) (hne : l1 ≠ []) :
    l2.getLast? = l1.getLast? := by
  obtain ⟨pre, hpre⟩ := h
  rw [← hpre, List.getLast?_append]
  cases hx : l1.getLast? with
  | none => exact absurd (List.getLast?_eq_none_iff.mp hx) hne
  | some y => rfl

theorem windowOK_evictOld (w ts_ns : Int) (payload : String) (h0 : List (String × Int))
    (hL : List.Pairwise (fun a b : String × Int => a.2 ≤ b.2) (h0 ++ [(payload, ts_ns)])) :
    windowOK w (evictOld ts_ns w (h0 ++ [(payload, ts_ns)])) = true := by
  cases hh : evictOld ts_ns w (h0 ++ [(payload, ts_ns)]) with
  | nil => rfl
  | cons x rest =>
    have hsuf := evictOld_suffix ts_ns w (h0 ++ [(payload, ts_ns)])
    rw [hh] at hsuf
    have hlast : (x :: rest).getLast? = some (payload, ts_ns) := by
      rw [← getLast?_of_suffix hsuf (by simp)]
      simp [List.getLast?_append]
    have hx : ts_ns - x.2 ≤ w :=
      evictOld_head ts_ns w (h0 ++ [(payload, ts_ns)]) x (by rw [hh]; rfl)
    have hpair2 : List.Pairwise (fun a b : String × Int => a.2 ≤ b.2) (x :: rest) :=
      hL.sublist hsuf.sublist
    simp only [windowOK, hlast, List.all_eq_true]
    intro e he
    rcases List.mem_cons.mp he with hex | hex
    · rw [hex]
      simp
      omega
    · have hxe : x.2 ≤ e.2 := (List.pairwise_cons.mp hpair2).1 e hex
      simp
      omega

theorem detStep_histInv (config : LiveBenchmarkConfig) (m : Int) (st : TrialDecoderState)
    (d : String) (ts_ns : Int) (payload : String) (hm : m ≤ ts_ns)
    (h : histInv (window_ns config) m st) :
    histInv (window_ns config) ts_ns (detStep config st d ts_ns payload) := by
  obtain ⟨hpair, hbound, _⟩ := h
  have hL : List.Pairwise (fun a b : String × Int => a.2 ≤ b.2)
      (st.history ++ [(payload, ts_ns)]) := by
    rw [List.pairwise_append]
    refine ⟨hpair, List.pairwise_singleton _ _, ?_⟩
    intro a ha b hb
    simp at hb
    rw [hb]
    exact le_trans (hbound a ha) hm
  have hsuf := evictOld_suffix ts_ns (window_ns config) (st.history ++ [(payload, ts_ns)])
  have hsub := hsuf.sublist
  have hmem : ∀ e ∈ evictOld ts_ns (window_ns config) (st.history ++ [(payload, ts_ns)]),
      e ∈ st.history ++ [(payload, ts_ns)] := fun e he => hsub.mem he
  refine ⟨?_, ?_, ?_⟩
  · rw [detStep_history]
    exact hL.sublist hsub
  · rw [detStep_history]
    intro e he
    rcases List.mem_append.mp (hmem e he) with hin | hin
    · exact le_trans (hbound e hin) hm
    · simp at hin
      rw [hin]
  · rw [detStep_history]
    exact windowOK_evictOld (window_ns config) ts_ns payload st.history hL

/-- Under non-decreasing detection timestamps, every reachable per-decoder
history satisfies the window invariant. -/
theorem run_histInv (config : LiveBenchmarkConfig) (ops : List BenchOp)
    (h : detectsMono ops) :
    ∃ m2, ∀ tid d, histInv (window_ns config) m2 (decoderState (run config initState ops) tid d) := by
  have hbase : ∀ m, histInv (window_ns config) m TrialDecoderState.init := by
    intro m
    refine ⟨List.Pairwise.nil, ?_, rfl⟩
    intro e he
    simp [TrialDecoderState.init] at he
  apply run_mono_inv config (histInv (window_ns config))
  · exact hbase
  · intro m m2 st hle hq
    exact ⟨hq.1, fun e he => le_trans (hq.2.1 e he) hle, hq.2.2⟩
  · intro m st d ts p hm hq
    exact detStep_histInv config m st d ts p hm hq
  · exact h
  · intro m tid d
    rw [decoderState_initState]
    exact hbase m

theorem on_video_sample_state (s : SharedCameraSession) :
    (on_video_sample s).1.frame_index = s.frame_index + 1 ∧
    (on_video_sample s).1.throttle_n_frames = s.throttle_n_frames ∧
    (on_video_sample s).1.parallel_decode = s.parallel_decode ∧
    (on_video_sample s).1.frames_received = s.frames_received + 1 := by
  simp only [on_video_sample]
  split <;> simp

theorem on_video_sample_outcome (s : SharedCameraSession) :
    (on_video_sample s).2.frame_index = s.frame_index + 1 ∧
    (on_video_sample s).2.events = ["FRAME_RECEIVED"] ∧
    (0 < (on_video_sample s).2.decode_submissions ↔
      (s.frame_index + 1) % s.throttle_n_frames = 0) := by
  simp only [on_video_sample]
  split
  · rename_i hcond
    simp at hcond
    simp [hcond]
  · rename_i hcond
    simp at hcond
    refine ⟨rfl, rfl, ?_⟩
    simp [hcond]
    split <;> omega

theorem runFrames_spec (k : Nat) : ∀ (s : SharedCameraSession),
    ((runFrames s k).2.map SampleOutcome.frame_index = List.range' (s.frame_index + 1) k) ∧
    (∀ o ∈ (runFrames s k).2, o.events = ["FRAME_RECEIVED"] ∧
      (0 < o.decode_submissions ↔ o.frame_index % s.throttle_n_frames = 0)) := by
  induction k with
  | zero => intro s; simp [runFrames]
  | succ n ih =>
    intro s
    obtain ⟨hfi, hth, _, _⟩ := on_video_sample_state s
    obtain ⟨hofi, hoev, hosub⟩ := on_video_sample_outcome s
    obtain ⟨ihmap, ihall⟩ := ih (on_video_sample s).1
    constructor
    · show ((on_video_sample s).2 :: (runFrames (on_video_sample s).1 n).2).map
        SampleOutcome.frame_index = List.range' (s.frame_index + 1) (n + 1)
      rw [List.range'_succ]
      simp only [List.map_cons, hofi, ihmap, hfi]
    · intro o ho
      rcases List.mem_cons.mp ho with hoe | hoe
      · subst hoe
        exact ⟨hoev, by rw [hofi]; exact hosub⟩
      · have := ihall o hoe
        rw [hth] at this
        exact this

theorem mathFloor_eq_floor (q : ℚ) : mathFloor q = ⌊q⌋ := (Rat.floor_def).symm

theorem mathCeil_eq_ceil (q : ℚ) : mathCeil q = ⌈q⌉ := by
  unfold mathCeil
  rw [mathFloor_eq_floor, Int.floor_neg, neg_neg]

theorem pyTruncScaled_one_eq_mathFloor (q : ℚ) (h : 0 ≤ q) :
    pyTruncScaled q 1 = mathFloor q := by
  unfold pyTruncScaled mathFloor
  rw [mul_one]
  exact Int.tdiv_eq_ediv (Rat.num_nonneg.mpr h) (by positivity)

theorem truthy_iff (o : Option Int) : truthy o = true ↔ ∃ t, o = some t ∧ t ≠ 0 := by
  cases o with
  | none => simp [truthy]
  | some t => simp [truthy]

theorem latency_ms_spec (t0_ns : Int) (o : Option Int) :
    latencySpec t0_ns o (latency_ms t0_ns o) := by
  constructor
  · intro t ht htne
    rw [ht]
    simp [latency_ms, htne]
  · intro hcase
    rcases hcase with hn | hz
    · rw [hn]; rfl
    · rw [hz]; simp [latency_ms]

theorem sortTrials_perm (l : List (Int × TrialRecord)) : (sortTrials l).Perm l :=
  List.mergeSort_perm l _

theorem sortTrials_sorted (l : List (Int × TrialRecord)) :
    List.Sorted (· ≤ ·) ((sortTrials l).map Prod.fst) := by
  have h := @List.sorted_mergeSort (Int × TrialRecord)
    (fun a b => decide (a.1 ≤ b.1))
    (by intro a b c hab hbc; simp only [decide_eq_true_eq] at hab hbc ⊢; omega)
    (by intro a b; simp only [Bool.or_eq_true, decide_eq_true_eq]; omega)
    l
  rw [List.Sorted, List.pairwise_map]
  exact h.imp (fun hab => of_decide_eq_true hab)

theorem trials_summary_rows_pairs (s : ControllerState) :
    (trials_summary_rows s).map (fun r => (r.trial_id, r.decoder)) =
      (sortTrials s.trials).flatMap (fun kv => DECODERS.map (fun d => (kv.1, d))) := by
  unfold trials_summary_rows
  rw [List.map_flatMap]
  congr 1

theorem mkRow_mem (s : ControllerState) (tid : Int) (trial : TrialRecord) (d : String)
    (h1 : (tid, trial) ∈ s.trials) (h2 : d ∈ DECODERS) :
    mkRow tid trial d ∈ trials_summary_rows s := by
  unfold trials_summary_rows
  rw [List.mem_flatMap]
  exact ⟨(tid, trial), (sortTrials_perm s.trials).mem_iff.mpr h1,
    List.mem_map.mpr ⟨d, h2, rfl⟩⟩

theorem decoderState_on_detection_self (config : LiveBenchmarkConfig) (s : ControllerState)
    (d : String) (ts_ns : Int) (payload : String) (trial_id : Int) (trial : TrialRecord)
    (hacc : accepts s ts_ns = some (trial_id, trial)) :
    decoderState (on_detection config s d ts_ns payload).1 trial_id d =
      detStep config ((alookup d trial.per_decoder).getD TrialDecoderState.init)
        d ts_ns payload := by
  have hspec := accepts_spec s ts_ns trial_id trial hacc
  simp only [on_detection, hacc]
  simp [decoderState, alookup_aset_self]

theorem decoderState_eq_of_accepts (s : ControllerState) (ts_ns : Int) (trial_id : Int)
    (trial : TrialRecord) (d : String) (hacc : accepts s ts_ns = some (trial_id, trial)) :
    decoderState s trial_id d =
      (alookup d trial.per_decoder).getD TrialDecoderState.init := by
  have hspec := accepts_spec s ts_ns trial_id trial hacc
  simp [decoderState, hspec.2.1]

theorem decoderState_on_detection_cases (config : LiveBenchmarkConfig) (s : ControllerState)
    (d : String) (ts_ns : Int) (payload : String) (tid : Int) (d0 : String) :
    decoderState (on_detection config s d ts_ns payload).1 tid d0 = decoderState s tid d0 ∨
    decoderState (on_detection config s d ts_ns payload).1 tid d0 =
      detStep config (decoderState s tid d0) d ts_ns payload := by
  cases hacc : accepts s ts_ns with
  | none =>
    left
    rw [on_detection_of_accepts_none config s d ts_ns payload hacc]
  | some pair =>
    obtain ⟨tid0, trial⟩ := pair
    have hspec := accepts_spec s ts_ns tid0 trial hacc
    by_cases htid : tid0 = tid
    · subst htid
      by_cases hd : d = d0
      · subst hd
        right
        rw [decoderState_on_detection_self config s d ts_ns payload tid0 trial hacc,
          decoderState_eq_of_accepts s ts_ns tid0 trial d hacc]
      · left
        simp only [on_detection, hacc]
        simp [decoderState, alookup_aset_self, hspec.2.1, alookup_aset_ne d d0 _ _ hd]
    · left
      simp only [on_detection, hacc]
      simp [decoderState, alookup_aset_ne tid0 tid _ _ htid]

theorem first_latched (config : LiveBenchmarkConfig) (s : ControllerState) (d : String)
    (ts_ns : Int) (payload : String) (tid : Int) (d0 : String) (v : Int)
    (hv : (decoderState s tid d0).first_detect_ns = some v) :
    (decoderState (on_detection config s d ts_ns payload).1 tid d0).first_detect_ns = some v := by
  rcases decoderState_on_detection_cases config s d ts_ns payload tid d0 with heq | heq
  · rw [heq]; exact hv
  · rw [heq, detStep_first, if_neg (by rw [hv]; simp), hv]

theorem confirm_latched (config : LiveBenchmarkConfig) (s : ControllerState) (d : String)
    (ts_ns : Int) (payload : String) (tid : Int) (d0 : String) (v : Int)
    (hv : (decoderState s tid d0).confirm_detect_ns = some v) :
    (decoderState (on_detection config s d ts_ns payload).1 tid d0).confirm_detect_ns =
      some v := by
  rcases decoderState_on_detection_cases config s d ts_ns payload tid d0 with heq | heq
  · rw [heq]; exact hv
  · rw [heq, detStep_confirm, if_neg (by rw [hv]; simp), hv]

/-- C1: `on_detection(decoder, ts, payload)` is a no-op — state unchanged and
no event logged — when no trial is active or when `ts` lies outside the closed
interval `[t0, timeout]` of the active trial; a detection timestamped exactly
at the timeout is accepted (its `PAYLOAD_DETECTED` event is emitted), while
one at `timeout + 1` ns is rejected as a no-op. -/
theorem claim_C1_on_detection_window (config : LiveBenchmarkConfig) (s : ControllerState)
    (d payload : String) :
    (∀ ts_ns, s.active_trial_id = none → on_detection config s d ts_ns payload = (s, none)) ∧
    (∀ trial_id trial ts_ns, s.active_trial_id = some trial_id →
      alookup trial_id s.trials = some trial →
      (ts_ns < trial.t0_ns ∨ trial.timeout_ns < ts_ns) →
      on_detection config s d ts_ns payload = (s, none)) ∧
    (∀ trial_id trial, s.active_trial_id = some trial_id →
      alookup trial_id s.trials = some trial → trial.t0_ns ≤ trial.timeout_ns →
      (on_detection config s d trial.timeout_ns payload).2 =
        some { timestamp_ns := trial.timeout_ns, trial_id := some trial_id, decoder := d,
               event_type := "PAYLOAD_DETECTED", payload_string := some payload } ∧
      on_detection config s d (trial.timeout_ns + 1) payload = (s, none)) := by
  refine ⟨?_, ?_, ?_⟩
  · intro ts_ns hact
    exact on_detection_of_accepts_none config s d ts_ns payload (by simp [accepts, hact])
  · intro trial_id trial ts_ns hact hlk hout
    exact on_detection_of_accepts_none config s d ts_ns payload
      (by simp [accepts, hact, hlk, hout])
  · intro trial_id trial hact hlk hbound
    constructor
    · have hacc : accepts s trial.timeout_ns = some (trial_id, trial) := by
        simp [accepts, hact, hlk]
        omega
      simp only [on_detection, hacc]
    · exact on_detection_of_accepts_none config s d (trial.timeout_ns + 1) payload
        (by simp [accepts, hact, hlk])

/-- C1 witness: with trial 1 active on `[0, 3000000000]`, a detection at
exactly 3000000000 ns is accepted and logged, one at 3000000001 ns is a
no-op. -/
theorem claim_C1_witness :
    (on_detection defaultConfig (run defaultConfig initState [BenchOp.startTrial 1 0])
        "VISION" 3000000000 "x").2 =
      some { timestamp_ns := 3000000000, trial_id := some 1, decoder := "VISION",
             event_type := "PAYLOAD_DETECTED", payload_string := some "x" } ∧
    on_detection defaultConfig (run defaultConfig initState [BenchOp.startTrial 1 0])
        "VISION" 3000000001 "x" =
      (run defaultConfig initState [BenchOp.startTrial 1 0], none) := by
  have h := (claim_C1_on_detection_window defaultConfig
    (run defaultConfig initState [BenchOp.startTrial 1 0]) "VISION" "x").2.2 1
    { trial_id := 1, t0_ns := 0, timeout_ns := 3000000000, per_decoder := [] }
    (by decide) (by decide) (by decide)
  exact ⟨h.1, h.2⟩

/-- C2 counterexample: with the default configuration (2 confirmations,
500 ms window) and detections arriving out of timestamp order, the trial
records `first_detection_ts = 100` but `confirmed_detection_ts = 50`, so
`confirmed ≥ first` fails as stated. -/
theorem claim_C2_counterexample :
    (decoderState (run defaultConfig initState
      [BenchOp.startTrial 1 0, BenchOp.detect "VISION" 100 "a",
       BenchOp.detect "VISION" 50 "a"]) 1 "VISION").first_detect_ns = some 100 ∧
    (decoderState (run defaultConfig initState
      [BenchOp.startTrial 1 0, BenchOp.detect "VISION" 100 "a",
       BenchOp.detect "VISION" 50 "a"]) 1 "VISION").confirm_detect_ns = some 50 ∧
    (50 : Int) < 100 := by decide

/-- C2 (amended): provided the detection timestamps are non-decreasing across
`on_detection` calls, `confirmed_detection_ts ≥ first_detection_ts` whenever
both are set; unconditionally, each of the two fields is latched — once set
to a value, no later `on_detection` call overwrites it. -/
theorem claim_C2_confirm_ge_first :
    (∀ (config : LiveBenchmarkConfig) (ops : List BenchOp), detectsMono ops →
      ∀ tid d t c,
        (decoderState (run config initState ops) tid d).first_detect_ns = some t →
        (decoderState (run config initState ops) tid d).confirm_detect_ns = some c →
        t ≤ c) ∧
    (∀ (config : LiveBenchmarkConfig) (s : ControllerState) (d : String) (ts_ns : Int)
      (payload : String) (tid : Int) (d0 : String) (v : Int),
      (decoderState s tid d0).first_detect_ns = some v →
      (decoderState (on_detection config s d ts_ns payload).1 tid d0).first_detect_ns =
        some v) ∧
    (∀ (config : LiveBenchmarkConfig) (s : ControllerState) (d : String) (ts_ns : Int)
      (payload : String) (tid : Int) (d0 : String) (v : Int),
      (decoderState s tid d0).confirm_detect_ns = some v →
      (decoderState (on_detection config s d ts_ns payload).1 tid d0).confirm_detect_ns =
        some v) := by
  refine ⟨?_, first_latched, confirm_latched⟩
  intro config ops hmono tid d t c hf hc
  obtain ⟨m2, hinv⟩ := run_confirmInv config ops hmono
  exact (hinv tid d).2.2 t c hf hc

/-- C2 witness: with in-order detections at 50 then 100 ns the theorem yields
`50 ≤ 100` for the (first, confirmed) pair of trial 1 / VISION. -/
theorem claim_C2_witness : (50 : Int) ≤ 100 :=
  claim_C2_confirm_ge_first.1 defaultConfig
    [BenchOp.startTrial 1 0, BenchOp.detect "VISION" 50 "a", BenchOp.detect "VISION" 100 "a"]
    (by simp [detectsMono, tsLB]) 1 "VISION" 50 100 (by decide) (by decide)

/-- C4: the dispatcher has no backpressure path. The decode submissions of a
sampled frame are independent of how many tasks the pool already holds, and
with 3 pending tasks (exceeding the declared-but-unused queue bound of 2) the
frame still submits both decode tasks, logs only `FRAME_RECEIVED` (no
"decode skipped — pool saturated" event exists), and grows the pool to 5. -/
theorem claim_C4_no_backpressure :
    (∀ (s : SharedCameraSession) (n : Nat),
      (on_video_sample { s with pending_tasks := n }).2 = (on_video_sample s).2) ∧
    ((on_video_sample { (mkSession 1 true) with pending_tasks := 3 }).2.decode_submissions = 2 ∧
     (on_video_sample { (mkSession 1 true) with pending_tasks := 3 }).2.events =
       ["FRAME_RECEIVED"] ∧
     (on_video_sample { (mkSession 1 true) with pending_tasks := 3 }).1.pending_tasks = 5 ∧
     (mkSession 1 true).decode_queue_maxsize = 2) := by
  constructor
  · intro s n
    simp only [on_video_sample]
    split <;> rfl
  · exact ⟨by decide, by decide, by decide, by decide⟩

/-- C5 counterexample: with a 1 ms window and accepted detections at
timestamps 10000000, 0, 10000000 (out of order), the stored history keeps the
entry at 0 even though it is 10000000 ns older than the most recently
appended entry — the window invariant fails as stated. -/
theorem claim_C5_counterexample :
    (decoderState (run cfgTinyWindow initState
      [BenchOp.startTrial 1 0, BenchOp.detect "VISION" 10000000 "a",
       BenchOp.detect "VISION" 0 "a", BenchOp.detect "VISION" 10000000 "a"])
      1 "VISION").history = [("a", 10000000), ("a", 0), ("a", 10000000)] ∧
    windowOK (window_ns cfgTinyWindow)
      ((decoderState (run cfgTinyWindow initState
        [BenchOp.startTrial 1 0, BenchOp.detect "VISION" 10000000 "a",
         BenchOp.detect "VISION" 0 "a", BenchOp.detect "VISION" 10000000 "a"])
        1 "VISION").history) = false := by decide

/-- C5 (amended): provided the detection timestamps are non-decreasing across
`on_detection` calls, after any run every per-decoder history contains no
entry older than the confirmation window relative to the most recently
appended entry. -/
theorem claim_C5_window_invariant (config : LiveBenchmarkConfig) (ops : List BenchOp)
    (h : detectsMono ops) (tid : Int) (d : String) :
    windowOK (window_ns config)
      ((decoderState (run config initState ops) tid d).history) = true := by
  obtain ⟨m2, hm⟩ := run_histInv config ops h
  exact (hm tid d).2.2

/-- C5 witness: an in-order run through the same shape of detections keeps
the window invariant true. -/
theorem claim_C5_window_witness :
    windowOK (window_ns defaultConfig)
      ((decoderState (run defaultConfig initState
        [BenchOp.startTrial 1 0, BenchOp.detect "VISION" 50 "b",
         BenchOp.detect "VISION" 100 "b"]) 1 "VISION").history) = true :=
  claim_C5_window_invariant defaultConfig
    [BenchOp.startTrial 1 0, BenchOp.detect "VISION" 50 "b", BenchOp.detect "VISION" 100 "b"]
    (by simp [detectsMono, tsLB]) 1 "VISION"

/-- C6: delivering `k` frames to a fresh session with throttle factor `N ≥ 1`
assigns the sequence numbers `1, 2, …, k` (strictly increasing by exactly 1,
starting at 1), records a frame-received event for every frame, and submits
decode tasks for a frame iff its sequence number is divisible by `N`. -/
theorem claim_C6_throttle (N : Nat) (hN : 1 ≤ N) (parallel : Bool) (k : Nat) :
    ((runFrames (mkSession N parallel) k).2.map SampleOutcome.frame_index =
      List.range' 1 k) ∧
    (∀ o ∈ (runFrames (mkSession N parallel) k).2,
      o.events = ["FRAME_RECEIVED"] ∧
      (0 < o.decode_submissions ↔ o.frame_index % N = 0)) := by
  obtain ⟨hmap, hall⟩ := runFrames_spec k (mkSession N parallel)
  have hth : (mkSession N parallel).throttle_n_frames = N := by
    simp [mkSession]
    omega
  constructor
  · exact hmap
  · intro o ho
    have h := hall o ho
    rw [hth] at h
    exact h

/-- C6 witness: throttle 2 over four frames numbers them 1..4; frames 2 and 4
are decoded, frames 1 and 3 are not. -/
theorem claim_C6_witness :
    ((runFrames (mkSession 2 true) 4).2.map SampleOutcome.frame_index =
      List.range' 1 4) ∧
    (∀ o ∈ (runFrames (mkSession 2 true) 4).2,
      o.events = ["FRAME_RECEIVED"] ∧
      (0 < o.decode_submissions ↔ o.frame_index % 2 = 0)) :=
  claim_C6_throttle 2 (by decide) true 4

/-- C9: `end_trial` only produces a `TRIAL_END` event — the trial map and the
active-trial id are untouched; `on_detection` never changes which trial is
active, and only `start_trial` does. -/
theorem claim_C9_end_trial (config : LiveBenchmarkConfig) (s : ControllerState)
    (trial_id ts_ns : Int) :
    (end_trial s trial_id ts_ns).1 = s ∧
    (end_trial s trial_id ts_ns).2.event_type = "TRIAL_END" ∧
    (∀ d ts p, ((on_detection config s d ts p).1).active_trial_id = s.active_trial_id) ∧
    (∀ tid t0, ((start_trial config s tid t0).1).active_trial_id = some tid) := by
  refine ⟨rfl, rfl, ?_, fun tid t0 => rfl⟩
  intro d ts p
  cases hacc : accepts s ts with
  | none => rw [on_detection_of_accepts_none config s d ts p hacc]
  | some pair =>
    obtain ⟨tid0, trial⟩ := pair
    simp only [on_detection, hacc]

/-- C10: whenever `confirmations_required > 1`, the `AVFOUNDATION` decoder's
`confirmed_detection_ts` always equals its `first_detection_ts` in every
trial of every run — the fallback fires on the very first accepted detection,
before the threshold could ever be consulted. -/
theorem claim_C10_avf_single_shot (config : LiveBenchmarkConfig)
    (hreq : 1 < config.confirmations_required) (ops : List BenchOp) (tid : Int) :
    (decoderState (run config initState ops) tid "AVFOUNDATION").confirm_detect_ns =
      (decoderState (run config initState ops) tid "AVFOUNDATION").first_detect_ns :=
  avf_confirm_eq_first_run config hreq ops tid

/-- C10 witness: three repeats of the same payload within the window (enough
to reach the threshold of 2 at the second detection) still leave
`confirmed = first = 5`. -/
theorem claim_C10_witness :
    (decoderState (run defaultConfig initState
      [BenchOp.startTrial 1 0, BenchOp.detect "AVFOUNDATION" 5 "q",
       BenchOp.detect "AVFOUNDATION" 6 "q", BenchOp.detect "AVFOUNDATION" 7 "q"]) 1
      "AVFOUNDATION").confirm_detect_ns =
    (decoderState (run defaultConfig initState
      [BenchOp.startTrial 1 0, BenchOp.detect "AVFOUNDATION" 5 "q",
       BenchOp.detect "AVFOUNDATION" 6 "q", BenchOp.detect "AVFOUNDATION" 7 "q"]) 1
      "AVFOUNDATION").first_detect_ns ∧
    (decoderState (run defaultConfig initState
      [BenchOp.startTrial 1 0, BenchOp.detect "AVFOUNDATION" 5 "q",
       BenchOp.detect "AVFOUNDATION" 6 "q", BenchOp.detect "AVFOUNDATION" 7 "q"]) 1
      "AVFOUNDATION").first_detect_ns = some 5 :=
  ⟨claim_C10_avf_single_shot defaultConfig (by decide)
      [BenchOp.startTrial 1 0, BenchOp.detect "AVFOUNDATION" 5 "q",
       BenchOp.detect "AVFOUNDATION" 6 "q", BenchOp.detect "AVFOUNDATION" 7 "q"] 1,
    by decide⟩

/-- C3: the two confirmation policies. (i) For the passive region-detector
(`AVFOUNDATION`), when `confirmations_required > 1` and the matching-payload
count never reaches the threshold within the window, the confirmation is set
equal to `first_detection_ts` rather than left unset. (ii) For every other
decoder, an accepted detection sets `confirmed_detection_ts = ts` exactly when
the matching-payload count first reaches `confirmations_required`; below the
threshold it stays unset, and once set it is never changed. -/
theorem claim_C3_confirmation_policies (config : LiveBenchmarkConfig) :
    (∀ (ops : List BenchOp) (tid : Int), 1 < config.confirmations_required →
      (∀ c ∈ acceptedCounts config initState ops,
        c.1 = "AVFOUNDATION" → c.2 < config.confirmations_required) →
      (decoderState (run config initState ops) tid "AVFOUNDATION").first_detect_ns ≠ none →
      ((decoderState (run config initState ops) tid "AVFOUNDATION").confirm_detect_ns =
        (decoderState (run config initState ops) tid "AVFOUNDATION").first_detect_ns ∧
       (decoderState (run config initState ops) tid "AVFOUNDATION").confirm_detect_ns ≠
        none)) ∧
    (∀ (s : ControllerState) (d : String) (ts_ns : Int) (payload : String)
      (tid : Int) (trial : TrialRecord), d ≠ "AVFOUNDATION" →
      accepts s ts_ns = some (tid, trial) →
      (((alookup d trial.per_decoder).getD TrialDecoderState.init).confirm_detect_ns = none →
        config.confirmations_required ≤
          detectionCount config ((alookup d trial.per_decoder).getD TrialDecoderState.init)
            ts_ns payload →
        (decoderState (on_detection config s d ts_ns payload).1 tid d).confirm_detect_ns =
          some ts_ns) ∧
      (((alookup d trial.per_decoder).getD TrialDecoderState.init).confirm_detect_ns = none →
        detectionCount config ((alookup d trial.per_decoder).getD TrialDecoderState.init)
            ts_ns payload < config.confirmations_required →
        (decoderState (on_detection config s d ts_ns payload).1 tid d).confirm_detect_ns =
          none) ∧
      (∀ c, ((alookup d trial.per_decoder).getD TrialDecoderState.init).confirm_detect_ns =
          some c →
        (decoderState (on_detection config s d ts_ns payload).1 tid d).confirm_detect_ns =
          some c)) := by
  constructor
  · intro ops tid hreq _ hfirst
    refine ⟨avf_confirm_eq_first_run config hreq ops tid, ?_⟩
    rw [avf_confirm_eq_first_run config hreq ops tid]
    exact hfirst
  · intro s d ts_ns payload tid trial hd hacc
    have hself := decoderState_on_detection_self config s d ts_ns payload tid trial hacc
    have havf : ¬ (d = "AVFOUNDATION" ∧ 1 < config.confirmations_required ∧
        detectionCount config ((alookup d trial.per_decoder).getD TrialDecoderState.init)
          ts_ns payload < config.confirmations_required) := fun hand => hd hand.1
    refine ⟨?_, ?_, ?_⟩
    · intro hconf hge
      rw [hself, detStep_confirm, if_pos hconf, if_neg havf, if_pos hge]
    · intro hconf hlt
      rw [hself, detStep_confirm, if_pos hconf, if_neg havf, if_neg (by omega), hconf]
    · intro c hc
      rw [hself, detStep_confirm, if_neg (by rw [hc]; simp), hc]

/-- C3 witness: (i) one accepted `AVFOUNDATION` detection (count 1 < 2) ends
with confirmation equal to the first detection and set; (ii) a first VISION
detection (count 1 < 2) leaves confirmation unset. -/
theorem claim_C3_witness :
    ((decoderState (run defaultConfig initState
        [BenchOp.startTrial 1 0, BenchOp.detect "AVFOUNDATION" 5 "q"]) 1
        "AVFOUNDATION").confirm_detect_ns =
      (decoderState (run defaultConfig initState
        [BenchOp.startTrial 1 0, BenchOp.detect "AVFOUNDATION" 5 "q"]) 1
        "AVFOUNDATION").first_detect_ns ∧
     (decoderState (run defaultConfig initState
        [BenchOp.startTrial 1 0, BenchOp.detect "AVFOUNDATION" 5 "q"]) 1
        "AVFOUNDATION").confirm_detect_ns ≠ none) ∧
    (decoderState (on_detection defaultConfig (run defaultConfig initState
        [BenchOp.startTrial 1 0]) "VISION" 5 "q").1 1 "VISION").confirm_detect_ns = none :=
  ⟨(claim_C3_confirmation_policies defaultConfig).1
      [BenchOp.startTrial 1 0, BenchOp.detect "AVFOUNDATION" 5 "q"] 1
      (by decide) (by decide) (by decide),
   (((claim_C3_confirmation_policies defaultConfig).2
      (run defaultConfig initState [BenchOp.startTrial 1 0]) "VISION" 5 "q" 1
      { trial_id := 1, t0_ns := 0, timeout_ns := 3000000000, per_decoder := [] }
      (by decide) (by decide)).2.1 (by decide) (by decide))⟩

theorem mergeSort_rat_sorted (values : List ℚ) :
    List.Sorted (· ≤ ·) (values.mergeSort (fun a b => decide (a ≤ b))) := by
  have h := @List.sorted_mergeSort ℚ
    (fun a b => decide (a ≤ b))
    (by
      intro a b c hab hbc
      simp only [decide_eq_true_eq] at hab hbc ⊢
      exact le_trans hab hbc)
    (by
      intro a b
      simp only [Bool.or_eq_true, decide_eq_true_eq]
      exact le_total a b)
    values
  exact h.imp (fun hab => of_decide_eq_true hab)

/-- C7: the 95th-percentile routine interpolates linearly at rank
`(count − 1) × 0.95` between the two bounding order statistics of the sorted
values, and on `[10, 20, 30, 40]` it returns exactly 38.5 = 77/2. -/
theorem claim_C7_percentile :
    (∀ values : List ℚ, values ≠ [] →
      ∃ sv, sv.Perm values ∧ List.Sorted (· ≤ ·) sv ∧
        percentile values (95/100) = some (p95Spec sv)) ∧
    percentile [10, 20, 30, 40] (95/100) = some (77/2) := by
  have hgen : ∀ values : List ℚ, values ≠ [] →
      ∃ sv, sv.Perm values ∧ List.Sorted (· ≤ ·) sv ∧
        percentile values (95/100) = some (p95Spec sv) := by
    intro values hne
    by_cases h1 : values.length = 1
    · obtain ⟨a, ha⟩ := List.length_eq_one.mp h1
      subst ha
      refine ⟨[a], List.Perm.refl _, List.sorted_singleton a, ?_⟩
      have hval : p95Spec [a] = a := by
        have hf : mathFloor 0 = 0 := by decide
        have hc : mathCeil 0 = 0 := by decide
        have hr : ((([a] : List ℚ).length : ℚ) - 1) * (95/100) = 0 := by norm_num
        simp [p95Spec, hr, hf, hc, List.getD]
      unfold percentile
      rw [if_neg hne, if_pos (by simp), hval]
      rfl
    · refine ⟨values.mergeSort (fun a b => decide (a ≤ b)),
        List.mergeSort_perm values _, mergeSort_rat_sorted values, ?_⟩
      have hlen : 1 ≤ values.length := List.length_pos.mpr hne
      have hslen : (values.mergeSort (fun a b => decide (a ≤ b))).length = values.length :=
        (List.mergeSort_perm values _).length_eq
      unfold percentile p95Spec
      rw [if_neg hne, if_neg h1]
      dsimp only
      split_ifs with hfc
      · have hr0 : (0:ℚ) ≤
            (((values.mergeSort (fun a b => decide (a ≤ b))).length : ℚ) - 1) * (95/100) := by
          apply mul_nonneg
          · rw [sub_nonneg]
            exact_mod_cast hslen ▸ hlen
          · norm_num
        rw [pyTruncScaled_one_eq_mathFloor _ hr0]
        have hfr : ((mathFloor ((((values.mergeSort (fun a b => decide (a ≤ b))).length : ℚ)
            - 1) * (95/100)) : Int) : ℚ) =
            (((values.mergeSort (fun a b => decide (a ≤ b))).length : ℚ) - 1) * (95/100) := by
          rw [mathFloor_eq_floor] at hfc ⊢
          rw [mathCeil_eq_ceil] at hfc
          refine le_antisymm (Int.floor_le _) ?_
          have h2 := Int.le_ceil
            ((((values.mergeSort (fun a b => decide (a ≤ b))).length : ℚ) - 1) * (95/100))
          rw [← hfc] at h2
          exact h2
        rw [← hfc, hfr]
        congr 1
        ring
      · rfl
  refine ⟨hgen, ?_⟩
  obtain ⟨sv, hperm, hsort, heq⟩ := hgen [10, 20, 30, 40] (by simp)
  have hsv : sv = [10, 20, 30, 40] := by
    refine List.eq_of_perm_of_sorted hperm hsort ?_
    norm_num [List.sorted_cons]
  rw [heq, hsv]
  have hf2 : mathFloor (57/20 : ℚ) = 2 := by
    rw [mathFloor_eq_floor]
    norm_num
  have hc3 : mathCeil (57/20 : ℚ) = 3 := by
    unfold mathCeil
    rw [mathFloor_eq_floor]
    have hneg : ⌊(-(57/20) : ℚ)⌋ = -3 := by norm_num
    rw [hneg]
    norm_num
  have hrk : ((([10, 20, 30, 40] : List ℚ).length : ℚ) - 1) * (95/100) = 57/20 := by
    norm_num
  have hg2 : ([10, 20, 30, 40] : List ℚ).getD ((2 : Int)).toNat 0 = 30 := by decide
  have hg3 : ([10, 20, 30, 40] : List ℚ).getD ((3 : Int)).toNat 0 = 40 := by decide
  unfold p95Spec
  dsimp only
  rw [hrk, hf2, hc3, hg2, hg3]
  norm_num

/-- C7 witness: instantiating the interpolation statement at
`[10, 20, 30, 40]`. -/
theorem claim_C7_witness :
    ∃ sv, sv.Perm ([10, 20, 30, 40] : List ℚ) ∧ List.Sorted (· ≤ ·) sv ∧
      percentile [10, 20, 30, 40] (95/100) = some (p95Spec sv) :=
  claim_C7_percentile.1 [10, 20, 30, 40] (by simp)

/-- C8 counterexample: the success flag is Python truthiness, not presence.
A detection accepted at timestamp 0 (trial started at t0 = 0) stores
`first_detection_ts = 0`, yet the summary row reports `success = false` and a
null first-detect latency, refuting "success iff a first-detection timestamp
is present". -/
theorem claim_C8_counterexample :
    (decoderState (run defaultConfig initState
      [BenchOp.startTrial 1 0, BenchOp.detect "VISION" 0 "x"]) 1
      "VISION").first_detect_ns = some 0 ∧
    (1, zeroTsTrialRecord) ∈
      (run defaultConfig initState
        [BenchOp.startTrial 1 0, BenchOp.detect "VISION" 0 "x"]).trials ∧
    mkRow 1 zeroTsTrialRecord "VISION" ∈
      trials_summary_rows (run defaultConfig initState
        [BenchOp.startTrial 1 0, BenchOp.detect "VISION" 0 "x"]) ∧
    (mkRow 1 zeroTsTrialRecord "VISION").success = false ∧
    (mkRow 1 zeroTsTrialRecord "VISION").first_detect_latency_ms = none :=
  ⟨by decide, by decide,
   mkRow_mem _ 1 _ "VISION" (by decide) (by decide),
   by decide, by decide⟩

/-- C8 (amended): `trials_summary_rows` emits one row per
(trial, decoder-in-`DECODERS`) pair, grouped in trial-id order; a row's
success flag is true iff a nonzero first-detection timestamp is present
(Python truthiness — a 0 ns timestamp counts as absent), each latency cell is
`(ts − t0)/1e6` ms exactly when the corresponding timestamp is present and
nonzero and null otherwise; in particular t0 = 1000000000 and a first
detection at 1050000000 give exactly 50 ms. -/
theorem claim_C8_summary_rows (s : ControllerState) :
    ((trials_summary_rows s).map (fun r => (r.trial_id, r.decoder)) =
      (sortTrials s.trials).flatMap (fun kv => DECODERS.map (fun d => (kv.1, d)))) ∧
    List.Sorted (· ≤ ·) ((sortTrials s.trials).map Prod.fst) ∧
    (sortTrials s.trials).Perm s.trials ∧
    (∀ tid trial d, (tid, trial) ∈ s.trials → d ∈ DECODERS →
      ∃ row ∈ trials_summary_rows s, row.trial_id = tid ∧ row.decoder = d ∧
        (row.success = true ↔
          ∃ t, ((alookup d trial.per_decoder).getD TrialDecoderState.init).first_detect_ns =
            some t ∧ t ≠ 0) ∧
        latencySpec trial.t0_ns
          ((alookup d trial.per_decoder).getD TrialDecoderState.init).first_detect_ns
          row.first_detect_latency_ms ∧
        latencySpec trial.t0_ns
          ((alookup d trial.per_decoder).getD TrialDecoderState.init).confirm_detect_ns
          row.confirm_detect_latency_ms) ∧
    latency_ms 1000000000 (some 1050000000) = some 50 := by
  refine ⟨trials_summary_rows_pairs s, sortTrials_sorted s.trials, sortTrials_perm s.trials,
    ?_, ?_⟩
  · intro tid trial d hmem hd
    refine ⟨mkRow tid trial d, mkRow_mem s tid trial d hmem hd, rfl, rfl, ?_, ?_, ?_⟩
    · exact truthy_iff _
    · exact latency_ms_spec _ _
    · exact latency_ms_spec _ _
  · show latency_ms 1000000000 (some 1050000000) = some 50
    simp [latency_ms]
    norm_num

/-- C8 witness: a stored trial with t0 = 1000000000 and a VISION first
detection at 1050000000 yields a matching summary row. -/
theorem claim_C8_witness :
    ∃ row ∈ trials_summary_rows sampleSummaryState, row.trial_id = 1 ∧
      row.decoder = "VISION" ∧
      (row.success = true ↔
        ∃ t, ((alookup "VISION" sampleTrialRecord.per_decoder).getD
          TrialDecoderState.init).first_detect_ns = some t ∧ t ≠ 0) ∧
      latencySpec sampleTrialRecord.t0_ns
        ((alookup "VISION" sampleTrialRecord.per_decoder).getD
          TrialDecoderState.init).first_detect_ns
        row.first_detect_latency_ms ∧
      latencySpec sampleTrialRecord.t0_ns
        ((alookup "VISION" sampleTrialRecord.per_decoder).getD
          TrialDecoderState.init).confirm_detect_ns
        row.confirm_detect_latency_ms :=
  (claim_C8_summary_rows sampleSummaryState).2.2.2.1 1 sampleTrialRecord "VISION"
    (by simp [sampleSummaryState]) (by simp [DECODERS])

end QRSpeedTest
